import Mathlib

/-!
# Verification of the LAN-sharing-tool HTTP file server (`share.py`)

A shallow embedding of the path resolution, range streaming, listing,
mailbox and control-channel logic of `share.py`, together with theorems
settling the specification claims.  Python strings are modelled as Lean
`String`s (operated on through their `List Char` data); Python `int` is
modelled as `Int`/`Nat` (Python integers are unbounded, so no modular
wrap is needed); filesystem state is passed explicitly.
-/

/-! ## List-of-char utilities (decidable, structural) -/

/-- Sum a list of decimal digit characters into the number they denote,
as Python `int(s)` does for a digit string. -/
def natOfDigits (ds : List Char) : Nat :=
  ds.foldl (fun a c => 10 * a + (c.toNat - 48)) 0

/-- Embeds `l₁` is a prefix of `l₂` (models Python `str.startswith`). -/
def listIsPrefixOf : List Char → List Char → Bool
  | [], _ => true
  | _ :: _, [] => false
  | a :: as, b :: bs => a == b && listIsPrefixOf as bs

/-- Split a list of characters on a separator character (models
Python `str.split(sep)` for a one-character separator: every separator
produces a boundary, so adjacent separators give empty components). -/
def splitOnChar (sep : Char) : List Char → List (List Char)
  | [] => [[]]
  | c :: rest =>
    let r := splitOnChar sep rest
    if c == sep then [] :: r
    else match r with
      | [] => [[c]]
      | h :: t => (c :: h) :: t

/-- Join components with a separator (models Python `sep.join(parts)`). -/
def joinWithChar (sep : Char) : List (List Char) → List Char
  | [] => []
  | [p] => p
  | p :: rest => p ++ sep :: joinWithChar sep rest

/-- Value of a hexadecimal digit character, if it is one. -/
def hexVal (c : Char) : Option Nat :=
  if '0' ≤ c ∧ c ≤ '9' then some (c.toNat - 48)
  else if 'a' ≤ c ∧ c ≤ 'f' then some (c.toNat - 87)
  else if 'A' ≤ c ∧ c ≤ 'F' then some (c.toNat - 55)
  else none

/-- Percent-decoding on characters, as `urllib.parse.unquote` performs it:
`%XY` with two hex digits decodes to the code point `16*X+Y`; a `%` not
followed by two hex digits is kept literally and scanning continues after
it.  (CPython further reassembles consecutive decoded bytes as UTF-8; the
claims only involve single-byte (ASCII) escapes, for which the byte is
the code point and this model coincides with CPython.) -/
def unquoteChars : List Char → List Char
  | '%' :: a :: b :: rest =>
    match hexVal a, hexVal b with
    | some ha, some hb => Char.ofNat (16 * ha + hb) :: unquoteChars rest
    | _, _ => '%' :: unquoteChars (a :: b :: rest)
  | c :: rest => c :: unquoteChars rest
  | [] => []

/-- Embeds `urllib.parse.unquote` on strings (see `unquoteChars`). -/
def pyUnquote (s : String) : String := ⟨unquoteChars s.data⟩

/-- Python `s.split(sep, 1)[0]`: the part of `s` before the first
occurrence of the character `sep` (all of `s` if absent). -/
def takeUntilChar (sep : Char) (s : String) : String :=
  ⟨s.data.takeWhile (fun c => c ≠ sep)⟩

/-! ## POSIX path functions (`posixpath.join` / `normpath` / `abspath` /
`basename`), as the server uses through `os.path` -/

/-- Embeds `posixpath.join(a, b)`: if `b` is absolute it wins; otherwise `b` is
appended to `a`, inserting a `/` unless `a` is empty or ends in one. -/
def pyJoin (a b : String) : String :=
  if listIsPrefixOf ['/'] b.data then b
  else if a = "" ∨ a.data.getLast? = some '/' then a ++ b
  else a ++ "/" ++ b

/-- Number of meaningful leading slashes for `posixpath.normpath`:
POSIX keeps exactly two leading slashes as special, one and three-or-more
collapse to one. -/
def initialSlashes (l : List Char) : Nat :=
  if listIsPrefixOf ['/'] l then
    if listIsPrefixOf ['/', '/'] l ∧ ¬ listIsPrefixOf ['/', '/', '/'] l then 2 else 1
  else 0

/-- The component-processing step of `posixpath.normpath`: skip empty and
`.` components; append a component unless it is a `..` that cancels a
previous real component (a leading `..` survives exactly on relative
paths or after another surviving `..`). -/
def normStep (isl : Nat) (acc : List (List Char)) (comp : List Char) : List (List Char) :=
  if comp = [] ∨ comp = ['.'] then acc
  else if comp ≠ ['.', '.'] ∨ (isl = 0 ∧ acc = []) ∨ acc.getLast? = some ['.', '.'] then
    acc ++ [comp]
  else if acc ≠ [] then acc.dropLast
  else acc

/-- Embeds `posixpath.normpath`: collapse `.`, `..` and repeated slashes,
purely lexically. -/
def pyNormpath (p : String) : String :=
  if p = "" then "." else
  let l := p.data
  let isl := initialSlashes l
  let comps := splitOnChar '/' l
  let newComps := comps.foldl (normStep isl) []
  let path := List.replicate isl '/' ++ joinWithChar '/' newComps
  if path = [] then "." else ⟨path⟩

/-- Embeds `posixpath.abspath` for the paths the server produces: they are
rooted at a share directory, which the configuration keeps absolute, so
`abspath` reduces to `normpath` (CPython would first prepend the process
working directory to a relative argument). -/
def pyAbspath (p : String) : String := pyNormpath p

/-- Embeds `posixpath.basename(p)`: everything after the last `/`. -/
def pyBasename (p : String) : String :=
  ⟨(splitOnChar '/' p.data).getLast?.getD []⟩

/-! ## The share-URL pattern and `translate_path` -/

/-- Embeds `re.match(r'^/share(\d+)/(.*)$', path)`: the path must start with
`/share`, then one or more digits, then `/`.  `.` does not match a
newline and `$` also matches just before a trailing newline, so the
remainder may contain no newline except a final one, which is excluded
from the captured group. -/
def matchShareUrl (p : String) : Option (Nat × String) :=
  match p.data with
  | '/' :: 's' :: 'h' :: 'a' :: 'r' :: 'e' :: rest =>
    let ds := rest.takeWhile Char.isDigit
    let r1 := rest.dropWhile Char.isDigit
    if ds = [] then none
    else match r1 with
      | '/' :: r2 =>
        let r2' := if r2.getLast? = some '\n' then r2.dropLast else r2
        if r2'.contains '\n' then none
        else some (natOfDigits ds, ⟨r2'⟩)
      | _ => none
  | _ => none

/-- Embeds `FileShareHandler.translate_path`: strip query and fragment,
percent-decode, route `/` to the root marker, and map `/share<N>/<rest>`
with `N` in range to `abspath(join(share_dir, rest))` provided that
result `startswith` the share directory's `abspath`; everything else is
`none` (rejected). -/
def translate_path (shared_dirs : List String) (path : String) : Option String :=
  let p1 := takeUntilChar '?' path
  let p2 := takeUntilChar '#' p1
  let p := pyUnquote p2
  if p = "/" ∨ p = "" then some "/__root__"
  else match matchShareUrl p with
    | some (n, sub_path) =>
      let share_index : Int := (n : Int) - 1
      if 0 ≤ share_index ∧ share_index < shared_dirs.length then
        let share_dir := shared_dirs.getD share_index.toNat ""
        let full_path := pyAbspath (pyJoin share_dir sub_path)
        if listIsPrefixOf (pyAbspath share_dir).data full_path.data
        then some full_path
        else none
      else none
    | none => none

/-- Modelled from the spec: "the canonical share root [is] a path-prefix
using path-segment boundaries" — the candidate equals the root or extends
it past a `/`.  This is the check the spec requires; `translate_path`
itself uses a plain string prefix. -/
def specSegBoundaryRootOf (root p : String) : Bool :=
  p = root || listIsPrefixOf (root.data ++ ['/']) p.data

/-! ## HTML generation fragments (Listing Renderer) -/

/-- One character of `html.escape(s, quote=True)`. -/
def escapeChar (c : Char) : List Char :=
  if c = '&' then "&amp;".data
  else if c = '<' then "&lt;".data
  else if c = '>' then "&gt;".data
  else if c = '"' then "&quot;".data
  else if c = '\'' then "&#x27;".data
  else [c]

/-- Embeds `html.escape(s, quote=True)`, as `list_directory` applies to entry
display names. -/
def htmlEscape (s : String) : String := ⟨s.data.flatMap escapeChar⟩

/-- The lines `list_shared_dirs` appends for the card of share number `i`
rooted at `dir_path` (display name is the basename, or the whole path if
the basename is empty; paths longer than 50 characters are shortened to
`...` plus the last 47).  The interpolated `dir_name` and `display_path`
are emitted as-is, with no escaping. -/
def shareCardLines (i : Nat) (dir_path : String) : List String :=
  let bn := pyBasename dir_path
  let dir_name := if bn ≠ "" then bn else dir_path
  let display_path :=
    if dir_path.length > 50 then "..." ++ ⟨dir_path.data.drop (dir_path.length - 47)⟩
    else dir_path
  ["<a href=\"/share" ++ toString i ++ "/\" class=\"dir-item\">",
   "<div class=\"folder-icon\"></div>",
   "<div class=\"dir-info\">",
   "<div class=\"dir-name\">" ++ dir_name ++ "</div>",
   "<div class=\"dir-path\">" ++ display_path ++ "</div>",
   "</div>",
   "<div class=\"arrow\">→</div>",
   "</a>"]

/-- The share-card section of the root share-picker page: the cards for
`share1 … shareN` in order. -/
def list_shared_dirs_items (shared_dirs : List String) : List String :=
  (shared_dirs.enum.map (fun p => shareCardLines (p.1 + 1) p.2)).flatten

/-- The `displaypath` heading that `list_directory` embeds, computed from
the raw request URL: percent-decode it, and rewrite a `/share<N>/<rest>`
URL to `share<N>/<rest>` (decoded).  The result is interpolated into the
`<h2>` line with no escaping. -/
def list_directory_heading (current_url : String) : String :=
  let displaypath := pyUnquote current_url
  let displaypath :=
    match matchShareUrl current_url with
    | some (n, rest) =>
      let rel_path := pyUnquote rest
      if rel_path ≠ "" then "share" ++ toString n ++ "/" ++ rel_path
      else "share" ++ toString n ++ "/"
    | none => displaypath
  "<h2>目录：" ++ displaypath ++ "</h2>"

/-! ## Mailbox (single-slot text message exchange)

`text_message.json` is the UI→browser (ToMobile) slot: the desktop UI's
`save_text_message` writes it, the browser polls it through
`/api/check_message` and clears it through `/api/confirm_message`.
`mobile_text_message.json` is the browser→UI (ToServer) slot: the
browser's `/api/send_text` writes it, the desktop UI's `check_messages`
poll consumes and deletes it. -/

/-- A stored mailbox message (text plus sender address; the timestamp
plays no role in any claim). -/
structure MailMsg where
  text : String
  sender_ip : String
deriving DecidableEq, Repr

/-- The two mailbox slot files, by their names in the code. -/
structure MailboxFS where
  text_message : Option MailMsg
  mobile_text_message : Option MailMsg
deriving DecidableEq, Repr

/-- Python whitespace for `str.strip()` (ASCII part). -/
def isPyWhitespace (c : Char) : Bool :=
  c = ' ' || c = '\t' || c = '\n' || c = '\r' || c = '\x0b' || c = '\x0c'

/-- Python `str.strip()`. -/
def pyStrip (s : String) : String :=
  ⟨((s.data.dropWhile isPyWhitespace).reverse.dropWhile isPyWhitespace).reverse⟩

/-- Embeds `POST /api/send_text`: strip the text; an empty result is a 400,
otherwise overwrite `mobile_text_message.json` (the ToServer slot) with
the text and the requesting peer's address and answer 200. -/
def send_text (fs : MailboxFS) (text client_ip : String) : MailboxFS × Nat :=
  let t := pyStrip text
  if t = "" then (fs, 400)
  else ({ fs with mobile_text_message := some ⟨t, client_ip⟩ }, 200)

/-- Embeds `POST /api/check_message`: report whether `text_message.json` (the
ToMobile slot) holds a message; always 200. -/
def check_message (fs : MailboxFS) : Nat × Bool :=
  (200, fs.text_message.isSome)

/-- Embeds `POST /api/confirm_message`: delete `text_message.json` (the ToMobile
slot) if present and answer 200.  The ToServer slot is untouched. -/
def confirm_message (fs : MailboxFS) : MailboxFS × Nat :=
  ({ fs with text_message := none }, 200)

/-! ## Streaming Transfer Engine: Range parsing and the copy loop -/

/-- Embeds `re.match(r'bytes=(\d+)-(\d*)', range_header)`: the header must begin
with `bytes=`, then one or more digits (the start), `-`, then greedily
zero or more digits (the optional end).  `re.match` anchors only at the
start, so anything after the matched prefix — e.g. `,20-30` of a
multi-range header — is ignored. -/
def parseRangeHdr (h : String) : Option (Nat × Option Nat) :=
  match h.data with
  | 'b' :: 'y' :: 't' :: 'e' :: 's' :: '=' :: rest =>
    let d1 := rest.takeWhile Char.isDigit
    let r1 := rest.dropWhile Char.isDigit
    if d1 = [] then none
    else match r1 with
      | '-' :: r2 =>
        let d2 := r2.takeWhile Char.isDigit
        some (natOfDigits d1, if d2 = [] then none else some (natOfDigits d2))
      | _ => none
  | _ => none

/-- Outcome of `FileShareHandler.range_request`: either a 416 (after
which the source file is closed), or the 206 head with its start offset,
content length and `Content-Range` header value. -/
inductive RangeHead where
  | r416 : RangeHead
  | r206 (start : Nat) (length : Nat) (contentRange : String) : RangeHead
deriving DecidableEq, Repr

/-- The line `end = int(end) if end else file_size - 1` shared by
`range_request` and `copyfile`: the parsed end, or the last byte of the
file (a Python int, so `-1` on an empty file). -/
def rangeEndOf (file_size : Nat) (eOpt : Option Nat) : Int :=
  match eOpt with
  | some e => (e : Int)
  | none => (file_size : Int) - 1

/-- Embeds `FileShareHandler.range_request` on a file of `file_size` bytes: an
unparsable header is a 416; a missing end defaults to `file_size - 1`;
`start ≥ size`, `end ≥ size` or `start > end` is a 416; otherwise the
206 head is sent with `Content-Range: bytes start-end/size` and
`Content-Length = end-start+1`. -/
def range_request (file_size : Nat) (range_header : String) : RangeHead :=
  match parseRangeHdr range_header with
  | none => .r416
  | some (s, eOpt) =>
    let e : Int := rangeEndOf file_size eOpt
    if (s : Int) ≥ (file_size : Int) ∨ e ≥ (file_size : Int) ∨ (s : Int) > e then .r416
    else .r206 s (e - (s : Int) + 1).toNat
        ("bytes " ++ toString s ++ "-" ++ toString e ++ "/" ++ toString file_size)

/-- The reference 64 KiB chunk size of `copyfile_range`. -/
def bufsize : Nat := 64 * 1024

/-- The chunked loop of `copyfile_range`, with an explicit iteration
bound: each pass reads `min(bufsize, length)` bytes at the current
position, stops at end-of-file or once `length` bytes are copied.  Every
pass copies at least one byte, so `length` iterations always suffice;
the `fuel` argument only makes the recursion structural. -/
def copyfileRangeAux (data : List Nat) : Nat → Nat → Nat → List Nat
  | _, _, 0 => []
  | pos, length, fuel + 1 =>
    if length = 0 then []
    else
      let buf := (data.drop pos).take (min bufsize length)
      if buf.length = 0 then []
      else buf ++ copyfileRangeAux data (pos + buf.length) (length - buf.length) fuel

/-- Embeds `FileShareHandler.copyfile_range`: copy `length` bytes of `data`
starting at offset `pos` to the peer, in `bufsize` chunks. -/
def copyfile_range (data : List Nat) (pos length : Nat) : List Nat :=
  copyfileRangeAux data pos length length

/-- Embeds `FileShareHandler.copyfile` for a request that carried a Range
header, plus the no-Range fallback: re-parse the header; on a match,
recompute start and end (a missing end is `file size - 1`) and run the
chunked range copy; on no match (or no header) copy the whole file.
`closed` records that `range_request` answered 416 and closed the source
file first: the subsequent read on the closed file raises before any
byte is written, so nothing reaches the peer. -/
def copyfileBytes (data : List Nat) (range_header : Option String) (closed : Bool) : List Nat :=
  if closed then []
  else match range_header with
    | some hdr =>
      match parseRangeHdr hdr with
      | some (s, eOpt) =>
        let e : Int := rangeEndOf data.length eOpt
        copyfile_range data s (e - (s : Int) + 1).toNat
      | none => data
    | none => data

/-- The observable pieces of one HTTP file response. -/
structure HttpOut where
  status : Nat
  contentRange : Option String
  contentLength : Option Nat
  body : List Nat
deriving DecidableEq, Repr

/-- One GET of a regular file whose bytes are `data`, as `send_head`
plus `copyfile` perform it: without a Range header a 200 with the full
content; with one, `range_request` decides 416 (closing the file, so the
body stays empty) or 206, and `copyfile` streams the bytes. -/
def serveFileGET (data : List Nat) (range_header : Option String) : HttpOut :=
  match range_header with
  | none => ⟨200, none, some data.length, copyfileBytes data none false⟩
  | some hdr =>
    match range_request data.length hdr with
    | .r416 => ⟨416, none, none, copyfileBytes data (some hdr) true⟩
    | .r206 _ len cr => ⟨206, some cr, some len, copyfileBytes data (some hdr) false⟩

/-! ## Directory listing order (C9)

Line 1717: `names.sort(key=lambda a: (not isdir(join(path, a)), a.lower()))`
— a stable sort by the pair (is-a-file, lowercased name), compared
lexicographically. -/

/-- Python `str.lower()` (ASCII model: the claims compare only by the
case-insensitive order, which `Char.toLower` realizes on ASCII). -/
def pyLower (s : String) : String := ⟨s.data.map Char.toLower⟩

/-- Lexicographic `≤` on code-point lists, as Python compares strings. -/
def charListLe : List Char → List Char → Bool
  | [], _ => true
  | _ :: _, [] => false
  | a :: as, b :: bs => if a < b then true else if b < a then false else charListLe as bs

/-- The first component of the sort key: Python's `not isdir(...)`,
with `False < True` rendered as `0 < 1`. -/
def groupOf (isDir : String → Bool) (a : String) : Nat :=
  if isDir a then 0 else 1

/-- The tuple comparison of the sort key
`(not isdir(join(path, a)), a.lower())`. -/
def sortKeyLe (isDir : String → Bool) (a b : String) : Bool :=
  decide (groupOf isDir a < groupOf isDir b)
  || ((groupOf isDir a == groupOf isDir b)
      && charListLe (pyLower a).data (pyLower b).data)

/-- The `names.sort(key=...)` call of `list_directory`: a sort of the
entry names by `sortKeyLe` (the key order of line 1717). -/
def list_directory_sort (isDir : String → Bool) (names : List String) : List String :=
  List.insertionSort (fun a b => sortKeyLe isDir a b = true) names

/-! ## Control Channel (shutdown sentinel files and the monitor loop) -/

/-- Embeds `is_positive_integer(s)`: `s.isdigit() and int(s) > 0` — nonempty,
all decimal digits, and a positive value.  (`str.isdigit` also accepts
some non-ASCII digit characters; the sentinel contents at issue are
ASCII.) -/
def is_positive_integer (s : String) : Bool :=
  (!s.data.isEmpty && s.data.all Char.isDigit) && decide (0 < natOfDigits s.data)

/-- The two sentinel files the monitor scans for: the cancel sentinel
(`取消关机.txt`, presence only) and the schedule sentinel (`关机.txt`,
with its content). -/
structure CtrlFS where
  cancel_file : Bool
  shutdown_file : Option String
deriving DecidableEq, Repr

/-- What one monitor pass did: the filesystem afterwards, whether the
cancel operation ran, and the delay passed to the platform shutdown
operation if it was invoked. -/
structure CycleResult where
  fs : CtrlFS
  cancel_invoked : Bool
  schedule_invoked : Option Nat
deriving Repr

/-- One pass of the `shutdown_monitor` loop body: if the cancel sentinel
exists, run the cancel operation and delete it; if the schedule sentinel
exists, strip its content and parse it with `is_positive_integer` —
invalid content is logged and ignored, the file kept; valid content
invokes the platform shutdown with that delay, and the sentinel is
deleted only when the invocation succeeds (`schedule_ok` abstracts
`schedule_shutdown`'s success). -/
def shutdown_monitor_cycle (schedule_ok : Nat → Bool) (fs : CtrlFS) : CycleResult :=
  let cancelled := fs.cancel_file
  match fs.shutdown_file with
  | some content0 =>
    let content := pyStrip content0
    if is_positive_integer content then
      let seconds := natOfDigits content.data
      if schedule_ok seconds then ⟨⟨false, none⟩, cancelled, some seconds⟩
      else ⟨⟨false, some content0⟩, cancelled, some seconds⟩
    else ⟨⟨false, some content0⟩, cancelled, none⟩
  | none => ⟨⟨false, none⟩, cancelled, none⟩

/-! ## The `/api/shutdown` handler and Python's bool-is-int (C10) -/

/-- The JSON values relevant to the `seconds` field, as Python objects. -/
inductive PyVal where
  | pyNone : PyVal
  | pyBool (b : Bool) : PyVal
  | pyInt (n : Int) : PyVal
  | pyString (s : String) : PyVal
deriving DecidableEq, Repr

/-- Embeds `isinstance(x, int)`: Python's `bool` is a subclass of `int`, so
both `True`/`False` and integers pass. -/
def pyIsInstanceInt : PyVal → Bool
  | .pyBool _ => true
  | .pyInt _ => true
  | _ => false

/-- The integer value of a Python int, with `True == 1` and
`False == 0` (used only under the `isinstance` guard). -/
def pyIntValue : PyVal → Int
  | .pyBool b => if b then 1 else 0
  | .pyInt n => n
  | _ => 0

/-- Python `str(x)` for the values `seconds` can hold. -/
def pyStrOf : PyVal → String
  | .pyBool true => "True"
  | .pyBool false => "False"
  | .pyInt n => toString n
  | .pyNone => "None"
  | .pyString s => s

/-- The `/api/shutdown` branch of `do_POST`: `seconds = data.get('seconds')`
(`none` when the key is absent); reject with 400 unless
`isinstance(seconds, int)` and `seconds > 0`; otherwise write
`str(seconds)` into the schedule sentinel, set the status string
`电脑端将于{seconds}秒后关机`, and answer 200. -/
def api_shutdown (fs : CtrlFS) (seconds : Option PyVal) :
    CtrlFS × Nat × Option String :=
  match seconds with
  | none => (fs, 400, none)
  | some v =>
    if pyIsInstanceInt v = false ∨ pyIntValue v ≤ 0 then (fs, 400, none)
    else ({ fs with shutdown_file := some (pyStrOf v) }, 200,
          some ("电脑端将于" ++ pyStrOf v ++ "秒后关机"))

/-- Substring containment, as Python's `in` on strings. -/
def hasInfix (sub : List Char) : List Char → Bool
  | [] => listIsPrefixOf sub []
  | c :: rest => listIsPrefixOf sub (c :: rest) || hasInfix sub rest

/-! ## `/api/create_file` (C7) -/

/-- Python `s.endswith(suffix)`. -/
def pyEndsWith (s suffix : String) : Bool :=
  listIsPrefixOf suffix.data.reverse s.data.reverse

/-- The filename validation of `create_file` (lines 2501–2506): must end
in `.txt`, and must not contain the substring `..`, a `/` or a `\`;
either failure is a 400. -/
def valid_txt_filename (filename : String) : Bool :=
  pyEndsWith filename ".txt"
  && !(hasInfix "..".data filename.data || filename.data.contains '/'
       || filename.data.contains '\\')

/-- Does a string start with `/share<digits>/` (the group of the Referer
pattern `.*(/share\d+/.*)$`)? -/
def startsWithShareSeg (l : List Char) : Bool :=
  match l with
  | '/' :: 's' :: 'h' :: 'a' :: 'r' :: 'e' :: rest =>
    let ds := rest.takeWhile Char.isDigit
    !ds.isEmpty && listIsPrefixOf ['/'] (rest.dropWhile Char.isDigit)
  | _ => false

/-- The rightmost suffix starting with `/share<digits>/`: the greedy
`.*` of `re.match(r'.*(/share\d+/.*)$', referer)` consumes as much as
possible, so the captured group is the shortest such suffix. -/
def findShareStart : List Char → Option (List Char)
  | [] => none
  | c :: rest =>
    match findShareStart rest with
    | some s => some s
    | none => if startsWithShareSeg (c :: rest) then some (c :: rest) else none

/-- Embeds `re.match(r'.*(/share\d+/.*)$', referer)`: `.` does not match a
newline and `$` also matches before a trailing newline, so a referer
with an interior newline never matches, a trailing newline is dropped,
and the group is the rightmost `/share<digits>/...` suffix. -/
def refererShareSuffix (referer : String) : Option String :=
  let l := referer.data
  let l' := if l.getLast? = some '\n' then l.dropLast else l
  if l'.contains '\n' then none
  else (findShareStart l').map (fun s => ⟨s⟩)

/-- The target-directory resolution of `create_file` (lines 2508–2526):
a Referer that matches the pattern is resolved through `translate_path`
and must name a directory (anything else is a 400, rendered here as
`none`); without a match the first share root is used, if any. -/
def resolve_target_dir (shared_dirs : List String) (isdir : String → Bool)
    (referer : String) : Option String :=
  match refererShareSuffix referer with
  | some current_path =>
    match translate_path shared_dirs current_path with
    | some p => if isdir p then some p else none
    | none => none
  | none =>
    match shared_dirs with
    | [] => none
    | d :: _ => some d

/-- The `/api/create_file` branch of `do_POST`.  `body` is the parsed
JSON request: `none` when `json.loads` (or the body decode) raises, in
which case the generic handler answers 500.  `isdir` and `files` stand
for the filesystem; the result is the file map afterwards and the
status code. -/
def create_file (shared_dirs : List String) (isdir : String → Bool)
    (files : String → Option String) (body : Option (String × String))
    (referer : String) : (String → Option String) × Nat :=
  match body with
  | none => (files, 500)
  | some (filename0, content) =>
    let filename := pyStrip filename0
    if valid_txt_filename filename = false then (files, 400)
    else
      match resolve_target_dir shared_dirs isdir referer with
      | none => (files, 400)
      | some dir =>
        let filepath := pyJoin dir filename
        if ((files filepath).isSome || isdir filepath) = true then (files, 409)
        else (fun q => if q = filepath then some content else files q, 201)

/-! ## Claim theorems: namespace resolution (C1, C2) -/

/-- C1: the claim says resolution succeeds only when the share root is a
path-prefix at a segment boundary, and that a target in a sibling
directory whose name merely extends the root string is Rejected.  The
code checks a plain string prefix: with share root `/data/movies`, the
request `/share1/../moviesX/f` canonicalizes to `/data/moviesX/f`, which
is not a segment-boundary descendant of the root, yet `translate_path`
accepts and returns it. -/
theorem c1_string_prefix_accepts_sibling :
    translate_path ["/data/movies"] "/share1/../moviesX/f" = some "/data/moviesX/f"
    ∧ specSegBoundaryRootOf "/data/movies" "/data/moviesX/f" = false := by
  decide

/-- C2: the claim says every `..` segment that escapes the matched share
root leads to Rejected.  With share root `/data/app`, the request
`/share1/../apps/secret.txt` contains a `..` segment whose
canonicalization `/data/apps/secret.txt` lies outside the root, yet
`translate_path` accepts it (the naive string-prefix check passes); the
percent-encoded form `%2e%2e` is accepted identically. -/
theorem c2_dotdot_escape_accepted :
    translate_path ["/data/app"] "/share1/../apps/secret.txt" = some "/data/apps/secret.txt"
    ∧ specSegBoundaryRootOf "/data/app" "/data/apps/secret.txt" = false
    ∧ translate_path ["/data/app"] "/share1/%2e%2e/apps/secret.txt"
        = some "/data/apps/secret.txt" := by
  decide

/-! ## Claim theorems: HTML escaping (C5) -/

/-- C5: the claim says every filesystem-derived string in both views is
HTML-escaped.  The root share-picker emits the share's display name and
path verbatim: a share rooted at `/data/<b>x` puts the raw markup
`<b>x` into the page (escaping would have produced `&lt;b&gt;x`), and
the per-directory view's heading embeds the decoded directory path
verbatim as well. -/
theorem c5_unescaped_name_injected :
    (list_shared_dirs_items ["/data/<b>x"]).contains
        "<div class=\"dir-name\"><b>x</div>" = true
    ∧ htmlEscape "<b>x" = "&lt;b&gt;x"
    ∧ list_directory_heading "/share1/<i>evil</i>/"
        = "<h2>目录：share1/<i>evil</i>/</h2>" := by
  decide

/-! ## Claim theorems: mailbox (C6) -/

/-- C6 counterexample: the claim says `/api/confirm_message` clears the
ToServer-direction slot — the one a browser `send_text` writes.  Starting
from empty slots, a `send_text` followed by `confirm_message` leaves the
ToServer slot (`mobile_text_message.json`) still occupied: the handler
deletes only `text_message.json`. -/
theorem c6_confirm_leaves_toserver_slot :
    (confirm_message (send_text ⟨none, none⟩ "hi" "10.0.0.2").1).1.mobile_text_message
      = some ⟨"hi", "10.0.0.2"⟩
    ∧ (confirm_message (send_text ⟨none, none⟩ "hi" "10.0.0.2").1).2 = 200 := by
  decide

/-- C6 (amended): `POST /api/confirm_message` clears the
ToMobile-direction slot (`text_message.json`, written by the UI side and
polled by the browser through `check_message`), leaves the
ToServer-direction slot untouched, and responds 200. -/
theorem c6_confirm_clears_tomobile_slot (fs : MailboxFS) :
    (confirm_message fs).1.text_message = none
    ∧ (confirm_message fs).1.mobile_text_message = fs.mobile_text_message
    ∧ (confirm_message fs).2 = 200 := by
  exact ⟨rfl, rfl, rfl⟩

/-- The copy loop writes exactly the requested window: the `length` bytes
of the file starting at `pos` (fewer only when the file ends first, which
the `take` also captures). -/
theorem copyfileRangeAux_eq (data : List Nat) :
    ∀ fuel pos length, length ≤ fuel →
      copyfileRangeAux data pos length fuel = (data.drop pos).take length := by
  intro fuel
  induction fuel with
  | zero =>
    intro pos length h
    interval_cases length
    simp [copyfileRangeAux]
  | succ fuel ih =>
    intro pos length h
    rw [copyfileRangeAux]
    by_cases h0 : length = 0
    · simp [h0]
    · simp only [if_neg h0]
      have hbpos : 0 < min bufsize length := by
        have : 0 < bufsize := by decide
        omega
      by_cases hb : ((data.drop pos).take (min bufsize length)).length = 0
      · have hdnil : data.drop pos = [] := by
          rw [List.length_take] at hb
          have hlen : (data.drop pos).length = 0 := by omega
          exact List.length_eq_zero.mp hlen
        simp [hb, hdnil]
      · simp only [if_neg hb]
        set d := data.drop pos with hd
        have hbuflen : ((d.take (min bufsize length))).length = min (min bufsize length) d.length := by
          simp [List.length_take]
        have hrec := ih (pos + (d.take (min bufsize length)).length)
            (length - (d.take (min bufsize length)).length) (by omega)
        rw [hrec]
        have hdropdrop : data.drop (pos + (d.take (min bufsize length)).length)
            = d.drop (d.take (min bufsize length)).length := by
          rw [hd, List.drop_drop]
        rw [hdropdrop]
        by_cases hshort : d.length ≤ min bufsize length
        · have hbuf_all : d.take (min bufsize length) = d := List.take_of_length_le hshort
          rw [hbuf_all]
          simp only [List.drop_length, List.take_nil, List.append_nil]
          have : d.length ≤ length := le_trans hshort (min_le_right _ _)
          exact (List.take_of_length_le this).symm
        · have hm : (d.take (min bufsize length)).length = min bufsize length := by
            rw [hbuflen]; omega
          rw [hm]
          have : min bufsize length + (length - min bufsize length) = length := by omega
          calc d.take (min bufsize length) ++ (d.drop (min bufsize length)).take (length - min bufsize length)
              = d.take (min bufsize length + (length - min bufsize length)) := (List.take_add ..).symm
            _ = d.take length := by rw [this]

/-- Lemma: `copyfile_range` writes `(data.drop pos).take length`. -/
theorem copyfile_range_eq (data : List Nat) (pos length : Nat) :
    copyfile_range data pos length = (data.drop pos).take length :=
  copyfileRangeAux_eq data length pos length le_rfl

/-- Lemma: `range_request` after a successful header parse, as an `if`. -/
theorem range_request_parsed (S : Nat) (hdr : String) (s : Nat) (eOpt : Option Nat)
    (hp : parseRangeHdr hdr = some (s, eOpt)) :
    range_request S hdr =
      (if (s : Int) ≥ (S : Int) ∨ rangeEndOf S eOpt ≥ (S : Int)
          ∨ (s : Int) > rangeEndOf S eOpt
       then .r416
       else .r206 s (rangeEndOf S eOpt - (s : Int) + 1).toNat
         ("bytes " ++ toString s ++ "-" ++ toString (rangeEndOf S eOpt) ++ "/"
           ++ toString S)) := by
  unfold range_request
  rw [hp]

/-- Lemma: `copyfile` on an open source file after a successful header parse
streams the window the copy loop covers. -/
theorem copyfileBytes_parsed (data : List Nat) (hdr : String) (s : Nat) (eOpt : Option Nat)
    (hp : parseRangeHdr hdr = some (s, eOpt)) :
    copyfileBytes data (some hdr) false =
      (data.drop s).take (rangeEndOf data.length eOpt - (s : Int) + 1).toNat := by
  simp [copyfileBytes, hp, copyfile_range_eq]

/-- A 416 head yields a 416 response with an empty body. -/
theorem serveFileGET_416 (data : List Nat) (hdr : String)
    (h : range_request data.length hdr = .r416) :
    serveFileGET data (some hdr) = ⟨416, none, none, []⟩ := by
  simp only [serveFileGET]
  rw [h]
  simp [copyfileBytes]

/-- A 206 head yields a 206 response whose body `copyfile` streams. -/
theorem serveFileGET_206 (data : List Nat) (hdr : String) (s len : Nat) (cr : String)
    (h : range_request data.length hdr = .r206 s len cr) :
    serveFileGET data (some hdr) = ⟨206, some cr, some len,
      copyfileBytes data (some hdr) false⟩ := by
  simp only [serveFileGET]
  rw [h]

/-! ## Claim theorems: single-range requests (C3) -/

/-- C3: for a regular file of `S` bytes served with a parsed single-range
header `bytes=start-end?` (missing end defaulting to `S-1`): outside
`0 ≤ start ≤ end < S` the response is 416 with no file bytes; inside it
is a 206 with `Content-Range: bytes start-end/S`,
`Content-Length = end-start+1` and exactly the bytes `start..end`
streamed; `bytes=0-` on a nonempty file returns the whole file with the
range ending at `S-1`; and `bytes=S-` returns 416.  (`start ≥ 0` holds
by construction, the regex only matches digits.) -/
theorem c3_single_range_contract (data : List Nat) (hdr : String) (start : Nat)
    (eOpt : Option Nat) (hparse : parseRangeHdr hdr = some (start, eOpt)) :
    (¬ ((start : Int) ≤ rangeEndOf data.length eOpt
        ∧ rangeEndOf data.length eOpt < (data.length : Int)) →
      serveFileGET data (some hdr) = ⟨416, none, none, []⟩)
    ∧ (((start : Int) ≤ rangeEndOf data.length eOpt
        ∧ rangeEndOf data.length eOpt < (data.length : Int)) →
      serveFileGET data (some hdr) =
        ⟨206,
         some ("bytes " ++ toString start ++ "-"
               ++ toString (rangeEndOf data.length eOpt) ++ "/"
               ++ toString data.length),
         some (rangeEndOf data.length eOpt - (start : Int) + 1).toNat,
         (data.drop start).take (rangeEndOf data.length eOpt - (start : Int) + 1).toNat⟩)
    ∧ (eOpt = none → start = 0 → 0 < data.length →
      serveFileGET data (some hdr) =
        ⟨206,
         some ("bytes " ++ toString (0 : Nat) ++ "-"
               ++ toString ((data.length : Int) - 1) ++ "/"
               ++ toString data.length),
         some data.length, data⟩)
    ∧ (eOpt = none → start = data.length →
      serveFileGET data (some hdr) = ⟨416, none, none, []⟩) := by
  refine ⟨?_, ?_, ?_, ?_⟩
  · intro hinvalid
    apply serveFileGET_416
    rw [range_request_parsed data.length hdr start eOpt hparse, if_pos]
    omega
  · intro hvalid
    have h206 : range_request data.length hdr =
        .r206 start (rangeEndOf data.length eOpt - (start : Int) + 1).toNat
          ("bytes " ++ toString start ++ "-" ++ toString (rangeEndOf data.length eOpt)
            ++ "/" ++ toString data.length) := by
      rw [range_request_parsed data.length hdr start eOpt hparse, if_neg]
      omega
    rw [serveFileGET_206 data hdr _ _ _ h206,
        copyfileBytes_parsed data hdr start eOpt hparse]
  · intro he h0 hpos
    subst he
    subst h0
    have hE : rangeEndOf data.length none = (data.length : Int) - 1 := rfl
    have h206 : range_request data.length hdr =
        .r206 0 (rangeEndOf data.length none - ((0 : Nat) : Int) + 1).toNat
          ("bytes " ++ toString (0 : Nat) ++ "-" ++ toString (rangeEndOf data.length none)
            ++ "/" ++ toString data.length) := by
      rw [range_request_parsed data.length hdr 0 none hparse, if_neg]
      rw [hE]
      omega
    rw [serveFileGET_206 data hdr _ _ _ h206,
        copyfileBytes_parsed data hdr 0 none hparse]
    have hlen : (rangeEndOf data.length none - ((0 : Nat) : Int) + 1).toNat
        = data.length := by
      rw [hE]
      omega
    rw [hlen, hE]
    simp
  · intro he hS
    subst he
    subst hS
    apply serveFileGET_416
    rw [range_request_parsed data.length hdr data.length none hparse, if_pos]
    left
    omega

/-- C3 witness: an 8-byte file with `Range: bytes=2-5` gets a 206 with
`Content-Range: bytes 2-5/8`, length 4 and exactly bytes 2..5. -/
theorem c3_witness :
    parseRangeHdr "bytes=2-5" = some (2, some 5)
    ∧ serveFileGET [10, 11, 12, 13, 14, 15, 16, 17] (some "bytes=2-5")
        = ⟨206, some "bytes 2-5/8", some 4, [12, 13, 14, 15]⟩ := by
  refine ⟨by decide, ?_⟩
  have h := (c3_single_range_contract [10, 11, 12, 13, 14, 15, 16, 17] "bytes=2-5"
      2 (some 5) (by decide)).2.1 (by decide)
  exact h.trans (by decide)

/-! ## Claim theorems: multi-range headers (C4) -/

/-- Lemma: `takeWhile`/`dropWhile` across a block that satisfies the predicate
followed by a stopper. -/
theorem takeWhile_append_stop (p : Char → Bool) (xs : List Char) (y : Char) (ys : List Char)
    (hxs : ∀ c ∈ xs, p c = true) (hy : p y = false) :
    (xs ++ y :: ys).takeWhile p = xs ∧ (xs ++ y :: ys).dropWhile p = y :: ys := by
  induction xs with
  | nil => simp [List.takeWhile_cons, List.dropWhile_cons, hy]
  | cons a as ih =>
    have ha : p a = true := hxs a (by simp)
    have ih' := ih (fun c hc => hxs c (by simp [hc]))
    simp [List.takeWhile_cons, List.dropWhile_cons, ha, ih'.1, ih'.2]

/-- Lemma: `takeWhile`/`dropWhile` when every element satisfies the predicate. -/
theorem takeWhile_all (p : Char → Bool) (xs : List Char) (hxs : ∀ c ∈ xs, p c = true) :
    xs.takeWhile p = xs ∧ xs.dropWhile p = [] := by
  induction xs with
  | nil => simp
  | cons a as ih =>
    have ha : p a = true := hxs a (by simp)
    have ih' := ih (fun c hc => hxs c (by simp [hc]))
    simp [List.takeWhile_cons, List.dropWhile_cons, ha, ih'.1, ih'.2]

/-- The range regex on a multi-range header `bytes=<ds1>-<ds2>,<rest>`:
`re.match` anchors only at the start, so the match succeeds and captures
just the first range; the comma and everything after it are ignored. -/
theorem parseRangeHdr_multi (ds1 ds2 rest : List Char) (h1 : ds1 ≠ [])
    (hd1 : ∀ c ∈ ds1, c.isDigit = true) (hd2 : ∀ c ∈ ds2, c.isDigit = true) :
    parseRangeHdr ⟨'b' :: 'y' :: 't' :: 'e' :: 's' :: '=' ::
        (ds1 ++ '-' :: (ds2 ++ ',' :: rest))⟩
      = some (natOfDigits ds1, if ds2 = [] then none else some (natOfDigits ds2)) := by
  have hs1 := takeWhile_append_stop Char.isDigit ds1 '-' (ds2 ++ ',' :: rest) hd1 (by decide)
  have hs2 := takeWhile_append_stop Char.isDigit ds2 ',' rest hd2 (by decide)
  simp only [parseRangeHdr, hs1.1, hs1.2, hs2.1, if_neg h1]

/-- The range regex on a single-range header `bytes=<ds1>-<ds2>`. -/
theorem parseRangeHdr_single (ds1 ds2 : List Char) (h1 : ds1 ≠ [])
    (hd1 : ∀ c ∈ ds1, c.isDigit = true) (hd2 : ∀ c ∈ ds2, c.isDigit = true) :
    parseRangeHdr ⟨'b' :: 'y' :: 't' :: 'e' :: 's' :: '=' :: (ds1 ++ '-' :: ds2)⟩
      = some (natOfDigits ds1, if ds2 = [] then none else some (natOfDigits ds2)) := by
  have hs1 := takeWhile_append_stop Char.isDigit ds1 '-' ds2 hd1 (by decide)
  have hs2 := takeWhile_all Char.isDigit ds2 hd2
  simp only [parseRangeHdr, hs1.1, hs1.2, hs2.1, if_neg h1]

/-- The whole response is a function of the parsed header. -/
theorem serveFileGET_hdr_congr (data : List Nat) (h1 h2 : String)
    (hp : parseRangeHdr h1 = parseRangeHdr h2) :
    serveFileGET data (some h1) = serveFileGET data (some h2) := by
  simp only [serveFileGET, range_request, copyfileBytes, hp]

/-- C4 counterexample: the claim says a multi-range header never gets a
206 because the regex does not match it.  But `re.match` matches a
prefix: on a 12-byte file, `Range: bytes=0-10,20-30` is answered 206
with the first range 0–10 served. -/
theorem c4_multirange_gets_206 :
    serveFileGET [0, 1, 2, 3, 4, 5, 6, 7, 8, 9, 10, 11] (some "bytes=0-10,20-30")
      = ⟨206, some "bytes 0-10/12", some 11, [0, 1, 2, 3, 4, 5, 6, 7, 8, 9, 10]⟩ := by
  decide

/-- C4 (amended): the range regex matches the leading single-range
prefix of a multi-range header, so `bytes=<a>-<b>,<anything>` is handled
exactly like the single-range request `bytes=<a>-<b>` — a 206 serving
only the first range when it is valid, a 416 otherwise, and never a
multipart response. -/
theorem c4_first_range_only (data : List Nat) (ds1 ds2 rest : List Char) (h1 : ds1 ≠ [])
    (hd1 : ∀ c ∈ ds1, c.isDigit = true) (hd2 : ∀ c ∈ ds2, c.isDigit = true) :
    serveFileGET data (some ⟨'b' :: 'y' :: 't' :: 'e' :: 's' :: '=' ::
        (ds1 ++ '-' :: (ds2 ++ ',' :: rest))⟩)
      = serveFileGET data (some ⟨'b' :: 'y' :: 't' :: 'e' :: 's' :: '=' ::
        (ds1 ++ '-' :: ds2)⟩) := by
  apply serveFileGET_hdr_congr
  rw [parseRangeHdr_multi ds1 ds2 rest h1 hd1 hd2,
      parseRangeHdr_single ds1 ds2 h1 hd1 hd2]

/-- C4 witness: `bytes=0-10,20-30` on a 12-byte file is served exactly
like `bytes=0-10`. -/
theorem c4_witness :
    (['0'] : List Char) ≠ []
    ∧ serveFileGET [0, 1, 2, 3, 4, 5, 6, 7, 8, 9, 10, 11]
        (some ⟨'b' :: 'y' :: 't' :: 'e' :: 's' :: '=' ::
          (['0'] ++ '-' :: (['1', '0'] ++ ',' :: "20-30".data))⟩)
      = serveFileGET [0, 1, 2, 3, 4, 5, 6, 7, 8, 9, 10, 11]
        (some ⟨'b' :: 'y' :: 't' :: 'e' :: 's' :: '=' :: (['0'] ++ '-' :: ['1', '0'])⟩) :=
  ⟨by decide,
   c4_first_range_only [0, 1, 2, 3, 4, 5, 6, 7, 8, 9, 10, 11] ['0'] ['1', '0'] "20-30".data
     (by decide) (by decide) (by decide)⟩

/-- Lemma: `charListLe` is total. -/
theorem charListLe_total : ∀ a b, charListLe a b = true ∨ charListLe b a = true := by
  intro a
  induction a with
  | nil => intro b; left; rfl
  | cons x xs ih =>
    intro b
    cases b with
    | nil => right; rfl
    | cons y ys =>
      rcases lt_trichotomy x y with h | h | h
      · left; simp [charListLe, h]
      · subst h
        rcases ih ys with h2 | h2
        · left; simp [charListLe, lt_irrefl, h2]
        · right; simp [charListLe, lt_irrefl, h2]
      · right; simp [charListLe, h]

/-- Lemma: `charListLe` is transitive. -/
theorem charListLe_trans :
    ∀ a b c, charListLe a b = true → charListLe b c = true → charListLe a c = true := by
  intro a
  induction a with
  | nil => intro b c _ _; rfl
  | cons x xs ih =>
    intro b c hab hbc
    cases b with
    | nil => simp [charListLe] at hab
    | cons y ys =>
      cases c with
      | nil => simp [charListLe] at hbc
      | cons z zs =>
        simp only [charListLe] at hab hbc ⊢
        by_cases h1 : x < y
        · by_cases h2 : y < z
          · have : x < z := lt_trans h1 h2
            simp [this]
          · by_cases h3 : z < y
            · simp [h2, h3] at hbc
            · have hyz : y = z := le_antisymm (not_lt.mp h3) (not_lt.mp h2)
              subst hyz
              simp [h1]
        · by_cases h1' : y < x
          · simp [h1, h1'] at hab
          · have hxy : x = y := le_antisymm (not_lt.mp h1') (not_lt.mp h1)
            subst hxy
            simp only [lt_irrefl, if_false] at hab
            by_cases h2 : x < z
            · simp [h2]
            · by_cases h3 : z < x
              · simp [h2, h3] at hbc
              · have hxz : x = z := le_antisymm (not_lt.mp h3) (not_lt.mp h2)
                subst hxz
                simp only [lt_irrefl, if_false] at hbc ⊢
                exact ih ys zs hab hbc

/-- Lemma: `sortKeyLe` is total. -/
theorem sortKeyLe_total (isDir : String → Bool) :
    ∀ a b, sortKeyLe isDir a b = true ∨ sortKeyLe isDir b a = true := by
  intro a b
  rcases Nat.lt_trichotomy (groupOf isDir a) (groupOf isDir b) with h | h | h
  · left; simp [sortKeyLe, h]
  · rcases charListLe_total (pyLower a).data (pyLower b).data with h2 | h2
    · left; simp [sortKeyLe, h, h2]
    · right; simp [sortKeyLe, h, h2]
  · right; simp [sortKeyLe, h]

/-- Lemma: `sortKeyLe` is transitive. -/
theorem sortKeyLe_trans (isDir : String → Bool) :
    ∀ a b c, sortKeyLe isDir a b = true → sortKeyLe isDir b c = true →
      sortKeyLe isDir a c = true := by
  intro a b c hab hbc
  simp only [sortKeyLe, Bool.or_eq_true, Bool.and_eq_true, decide_eq_true_eq,
    beq_iff_eq] at hab hbc ⊢
  rcases hab with h | ⟨h, h2⟩ <;> rcases hbc with h' | ⟨h', h2'⟩
  · left; omega
  · left; omega
  · left; omega
  · right; exact ⟨by omega, charListLe_trans _ _ _ h2 h2'⟩

/-- C9: in every rendered listing, all directories precede all files,
and within each of the two groups the lowercased names are ascending:
for positions `i < j` of the sorted entry list, if entry `j` is a
directory so is entry `i`, and entries in the same group are in
case-insensitive ascending order. -/
theorem c9_listing_sorted (isDir : String → Bool) (names : List String)
    (i j : Fin (list_directory_sort isDir names).length) (hij : i < j) :
    (isDir ((list_directory_sort isDir names).get j) = true →
      isDir ((list_directory_sort isDir names).get i) = true)
    ∧ (isDir ((list_directory_sort isDir names).get i)
        = isDir ((list_directory_sort isDir names).get j) →
      charListLe (pyLower ((list_directory_sort isDir names).get i)).data
        (pyLower ((list_directory_sort isDir names).get j)).data = true) := by
  have hs : List.Sorted (fun a b => sortKeyLe isDir a b = true)
      (list_directory_sort isDir names) := by
    haveI ht : IsTotal String (fun a b => sortKeyLe isDir a b = true) :=
      ⟨sortKeyLe_total isDir⟩
    haveI htr : IsTrans String (fun a b => sortKeyLe isDir a b = true) :=
      ⟨fun a b c => sortKeyLe_trans isDir a b c⟩
    exact List.sorted_insertionSort _ names
  have hrel := hs.rel_get_of_lt hij
  simp only [sortKeyLe, Bool.or_eq_true, Bool.and_eq_true, decide_eq_true_eq,
    beq_iff_eq, groupOf, List.get_eq_getElem] at hrel
  simp only [List.get_eq_getElem]
  constructor
  · intro hdj
    rcases hrel with h | ⟨h, _⟩ <;>
    · by_cases hgi : isDir (list_directory_sort isDir names)[(i : Nat)] = true
      · exact hgi
      · rw [if_neg hgi, if_pos hdj] at h
        exact absurd h (by omega)
  · intro heq
    rcases hrel with h | ⟨_, h2⟩
    · exfalso
      rcases Bool.eq_false_or_eq_true
          (isDir (list_directory_sort isDir names)[(i : Nat)]) with hbi | hbi <;>
        rcases Bool.eq_false_or_eq_true
            (isDir (list_directory_sort isDir names)[(j : Nat)]) with hbj | hbj <;>
          simp only [hbi, hbj] at heq h <;> simp at h heq
    · exact h2

/-- C9 witness: sorting `["beta.TXT", "adir", "Alpha.txt", "Zdir"]` with
`adir` and `Zdir` as directories puts the directories first and each
group in case-insensitive order, as the theorem instantiates at
positions 0 < 1. -/
theorem c9_witness :
    list_directory_sort (fun s => (["Zdir", "adir"] : List String).contains s)
        ["beta.TXT", "adir", "Alpha.txt", "Zdir"]
      = ["adir", "Zdir", "Alpha.txt", "beta.TXT"]
    ∧ ((⟨0, by decide⟩ :
          Fin (list_directory_sort (fun s => (["Zdir", "adir"] : List String).contains s)
            ["beta.TXT", "adir", "Alpha.txt", "Zdir"]).length) < ⟨1, by decide⟩)
    ∧ ((fun s => (["Zdir", "adir"] : List String).contains s)
          ((list_directory_sort (fun s => (["Zdir", "adir"] : List String).contains s)
            ["beta.TXT", "adir", "Alpha.txt", "Zdir"]).get ⟨1, by decide⟩) = true →
        (fun s => (["Zdir", "adir"] : List String).contains s)
          ((list_directory_sort (fun s => (["Zdir", "adir"] : List String).contains s)
            ["beta.TXT", "adir", "Alpha.txt", "Zdir"]).get ⟨0, by decide⟩) = true) :=
  ⟨by decide, by decide,
   (c9_listing_sorted (fun s => (["Zdir", "adir"] : List String).contains s)
      ["beta.TXT", "adir", "Alpha.txt", "Zdir"] ⟨0, by decide⟩ ⟨1, by decide⟩
      (by decide)).1⟩

/-! ## Claim theorems: monitor contract (C8) -/

/-- C8: on every cycle in which the schedule sentinel exists, its
stripped content is parsed as a positive integer; non-positive or
non-numeric content leads to no invocation and the file kept; a
successful parse invokes the platform shutdown with that delay, and the
sentinel is deleted exactly when the invocation reports success. -/
theorem c8_monitor_contract (schedule_ok : Nat → Bool) (fs : CtrlFS) (content : String)
    (h : fs.shutdown_file = some content) :
    (is_positive_integer (pyStrip content) = true →
      (shutdown_monitor_cycle schedule_ok fs).schedule_invoked
        = some (natOfDigits (pyStrip content).data)
      ∧ ((shutdown_monitor_cycle schedule_ok fs).fs.shutdown_file = none
          ↔ schedule_ok (natOfDigits (pyStrip content).data) = true))
    ∧ (is_positive_integer (pyStrip content) = false →
      (shutdown_monitor_cycle schedule_ok fs).schedule_invoked = none
      ∧ (shutdown_monitor_cycle schedule_ok fs).fs.shutdown_file = some content) := by
  constructor
  · intro hpos
    by_cases hok : schedule_ok (natOfDigits (pyStrip content).data) = true <;>
      simp [shutdown_monitor_cycle, h, hpos, hok]
  · intro hneg
    simp [shutdown_monitor_cycle, h, hneg]

/-- C8 witness: a sentinel containing `"30"` under an always-succeeding
shutdown operation is invoked with delay 30 and removed. -/
theorem c8_witness :
    (⟨false, some "30"⟩ : CtrlFS).shutdown_file = some "30"
    ∧ is_positive_integer (pyStrip "30") = true
    ∧ (shutdown_monitor_cycle (fun _ => true) ⟨false, some "30"⟩).schedule_invoked
        = some (natOfDigits (pyStrip "30").data)
    ∧ ((shutdown_monitor_cycle (fun _ => true) ⟨false, some "30"⟩).fs.shutdown_file = none
        ↔ (fun _ : Nat => true) (natOfDigits (pyStrip "30").data) = true) := by
  have h := (c8_monitor_contract (fun _ => true) ⟨false, some "30"⟩ "30" rfl).1 (by decide)
  exact ⟨rfl, by decide, h.1, h.2⟩

/-! ## Claim theorems: boolean `seconds` accepted but never executed (C10) -/

/-- C10: `{"seconds": true}` passes the handler's validation because
Python's `True` is an `int` greater than 0: the handler answers 200,
the status string contains `True`, and the sentinel file receives the
content `"True"` — which the monitor then rejects as not a positive
integer, so no shutdown is ever invoked and the sentinel stays. -/
theorem c10_bool_seconds_accepted (schedule_ok : Nat → Bool) :
    api_shutdown ⟨false, none⟩ (some (.pyBool true))
      = (⟨false, some "True"⟩, 200, some "电脑端将于True秒后关机")
    ∧ hasInfix "True".data "电脑端将于True秒后关机".data = true
    ∧ is_positive_integer (pyStrip "True") = false
    ∧ (shutdown_monitor_cycle schedule_ok ⟨false, some "True"⟩).schedule_invoked = none
    ∧ (shutdown_monitor_cycle schedule_ok ⟨false, some "True"⟩).fs.shutdown_file
        = some "True" :=
  ⟨by decide, by decide, by decide, rfl, rfl⟩

/-! ## Claim theorems: create_file (C7) -/

/-- C7 counterexample: the claim says 400 exactly on a malformed request
or a failed name validation (no `.txt` suffix, path separator, or `..`
segment).  But (i) a request whose body does not parse is answered 500,
not 400, and (ii) the code tests `'..' in filename` as a substring:
`a..b.txt` — which ends in `.txt`, has no separator and no `..`
*segment* — is rejected with 400. -/
theorem c7_malformed_500_and_dotdot_substring :
    (create_file ["/data/share"] (fun p => p == "/data/share") (fun _ => none)
        none "").2 = 500
    ∧ (create_file ["/data/share"] (fun p => p == "/data/share") (fun _ => none)
        (some ("a..b.txt", "x")) "").2 = 400
    ∧ pyEndsWith "a..b.txt" ".txt" = true
    ∧ "a..b.txt".data.contains '/' = false
    ∧ "a..b.txt".data.contains '\\' = false
    ∧ ((splitOnChar '/' "a..b.txt".data).contains ['.', '.']) = false := by
  decide

/-- C7 (amended): with a body that parses, the handler answers 400 when
the stripped filename fails validation (`.txt` suffix; no `..`
substring, `/` or `\`) or when the Referer-derived target directory is
invalid; with a valid name and target directory it answers 409 exactly
when the target path already exists, and otherwise 201, creating that
file with the given content and leaving every other path unmodified.  A
body that does not parse is answered 500. -/
theorem c7_create_file_contract (shared_dirs : List String) (isdir : String → Bool)
    (files : String → Option String) (body : Option (String × String)) (referer : String) :
    (body = none → create_file shared_dirs isdir files body referer = (files, 500))
    ∧ (∀ fn content, body = some (fn, content) →
        (valid_txt_filename (pyStrip fn) = false →
          create_file shared_dirs isdir files body referer = (files, 400))
        ∧ (valid_txt_filename (pyStrip fn) = true →
            (resolve_target_dir shared_dirs isdir referer = none →
              create_file shared_dirs isdir files body referer = (files, 400))
            ∧ (∀ dir, resolve_target_dir shared_dirs isdir referer = some dir →
                (((files (pyJoin dir (pyStrip fn))).isSome
                    || isdir (pyJoin dir (pyStrip fn))) = true →
                  create_file shared_dirs isdir files body referer = (files, 409))
                ∧ (((files (pyJoin dir (pyStrip fn))).isSome
                    || isdir (pyJoin dir (pyStrip fn))) = false →
                  (create_file shared_dirs isdir files body referer).2 = 201
                  ∧ (create_file shared_dirs isdir files body referer).1
                      (pyJoin dir (pyStrip fn)) = some content
                  ∧ ∀ q, q ≠ pyJoin dir (pyStrip fn) →
                      (create_file shared_dirs isdir files body referer).1 q
                        = files q)))) := by
  refine ⟨?_, ?_⟩
  · intro h
    subst h
    rfl
  · intro fn content h
    subst h
    refine ⟨?_, ?_⟩
    · intro hbad
      simp [create_file, hbad]
    · intro hgood
      refine ⟨?_, ?_⟩
      · intro hres
        simp [create_file, hgood, hres]
      · intro dir hres
        refine ⟨?_, ?_⟩
        · intro hex
          simp [create_file, hgood, hres, hex]
        · intro hnex
          refine ⟨?_, ?_, ?_⟩
          · simp [create_file, hgood, hres, hnex]
          · simp [create_file, hgood, hres, hnex]
          · intro q hq
            simp [create_file, hgood, hres, hnex, hq]

/-- C7 witness: creating `notes.txt` in the first share root (no
Referer) of an empty share succeeds with 201 and writes the content. -/
theorem c7_witness :
    valid_txt_filename (pyStrip "notes.txt") = true
    ∧ resolve_target_dir ["/d"] (fun p => p == "/d") "" = some "/d"
    ∧ (((fun _ => (none : Option String)) (pyJoin "/d" (pyStrip "notes.txt"))).isSome
        || (fun p => p == "/d") (pyJoin "/d" (pyStrip "notes.txt"))) = false
    ∧ (create_file ["/d"] (fun p => p == "/d") (fun _ => none)
        (some ("notes.txt", "hi")) "").2 = 201
    ∧ (create_file ["/d"] (fun p => p == "/d") (fun _ => none)
        (some ("notes.txt", "hi")) "").1 (pyJoin "/d" (pyStrip "notes.txt"))
      = some "hi" := by
  have h := ((((c7_create_file_contract ["/d"] (fun p => p == "/d") (fun _ => none)
      (some ("notes.txt", "hi")) "").2 "notes.txt" "hi" rfl).2 (by decide)).2
      "/d" (by decide)).2 (by decide)
  exact ⟨by decide, by decide, by decide, h.1, h.2.1⟩
